import Mathlib

/-!
# Verification of the insurance-policy management app (`src/app.py`)

This file gives a shallow embedding of the pure logic and the stateful
operations of `app.py` (a single-file Streamlit application backed by
SQLite), together with theorems settling the frozen claims about it.

Conventions used throughout:

* Python strings are modelled as Lean `String` / `List Char`.
* Python `k in t` (substring test) is modelled by `containsSub`.
* SQLite tables with a unique key are modelled as assoc structures:
  the `usage_daily` table (UNIQUE(ymd, username)) as a function
  `String → String → Option UsageRow`; the row tables (`customers`,
  `policies`, `policy_items`) as lists in rowid order with an explicit
  AUTOINCREMENT counter.
* `st.error(...)` followed by `st.stop()` is modelled as returning an
  error outcome with the state reached at that point.
* The external OpenAI call is an oracle parameter (`AIOutcome`): the
  transport may fail, the returned text may fail to parse as JSON, or
  a parsed document is produced.
* Timestamps (`datetime.now().isoformat()`) are opaque strings passed
  as parameters.
-/

/-! ## Python string primitives -/

/-- Whitespace as stripped by Python `str.strip()` (the common ASCII
whitespace characters plus no-break space and ideographic space; the
inputs appearing in the claims only use ASCII space). -/
def pySpace (c : Char) : Bool :=
  c = ' ' ∨ c = '\t' ∨ c = '\n' ∨ c = '\r' ∨ c = '\x0B' ∨ c = '\x0C' ∨
  c = ' ' ∨ c = '　'

/-- Python `str.strip()`: drop leading and trailing whitespace. -/
def pyStrip (s : List Char) : List Char :=
  ((s.dropWhile pySpace).reverse.dropWhile pySpace).reverse

/-- `pyStrip` on a `String`, as used where the source calls `.strip()`
on a value that stays a string. -/
def pyStripS (s : String) : String :=
  String.mk (pyStrip s.data)

/-- Python `k in t` for strings: `k` occurs as a contiguous substring
of `t`. -/
def containsSub (t k : List Char) : Bool :=
  decide (k <:+: t)

/-- Python `any(k in t for k in ks)`. -/
def containsAny (t : List Char) (ks : List String) : Bool :=
  ks.any fun k => containsSub t k.data

/-- Python `str.lower()` (ASCII case folding; the source only compares
against the ASCII literal `"nan"`). -/
def pyLower (s : List Char) : List Char :=
  s.map Char.toLower

/-! ## `classify_item_category` (app.py lines 329–348) -/

/-- Keyword group for the life-insurance category (`壽險`). -/
def lifeKeys : List String := ["壽險", "定期壽險", "終身壽險", "重大傷病定期保險", "壽"]

/-- Keyword group for the medical category (`醫療`). -/
def medicalKeys : List String := ["住院", "實支", "醫療", "手術", "療程", "健康保險", "醫卡", "日額"]

/-- Keyword group for the accident category (`意外`). -/
def accidentKeys : List String := ["傷害", "意外", "骨折", "失能", "災害"]

/-- Keyword group for the cancer category (`癌症`). -/
def cancerKeys : List String := ["癌", "防癌", "惡性腫瘤"]

/-- Keyword group for the critical-illness category (`重傷`). -/
def criticalKeys : List String := ["重大傷病", "重傷", "重大疾病"]

/-- Keyword group for the long-term-care category (`長照`). -/
def ltcKeys : List String := ["長照", "照護", "失能扶助", "失能照護"]

/-- Keyword group for the premium-waiver category (`豁免`). -/
def waiverKeys : List String := ["豁免", "免繳"]

/-- `classify_item_category(name)`: strip the name; empty means `其他`
(other); otherwise test the seven keyword groups in source order and
return the first category whose group has a keyword occurring in the
stripped name, falling back to `其他`. -/
def classify_item_category (name : String) : String :=
  let t := pyStrip name.data
  if t.isEmpty then "其他"
  else if containsAny t lifeKeys then "壽險"
  else if containsAny t medicalKeys then "醫療"
  else if containsAny t accidentKeys then "意外"
  else if containsAny t cancerKeys then "癌症"
  else if containsAny t criticalKeys then "重傷"
  else if containsAny t ltcKeys then "長照"
  else if containsAny t waiverKeys then "豁免"
  else "其他"

/-- The ordered (category, keyword group) table of the classifier, in
the order the source tests the groups. -/
def categoryGroups : List (String × List String) :=
  [("壽險", lifeKeys), ("醫療", medicalKeys), ("意外", accidentKeys),
   ("癌症", cancerKeys), ("重傷", criticalKeys), ("長照", ltcKeys),
   ("豁免", waiverKeys)]

/-- Modelled from the spec's description of the categorizer: first-match
wins over the ordered keyword groups, `其他` when nothing matches or the
input is blank. Used to compare the code's if-chain against the spec's
ordered-table reading. -/
def classifySpec (name : String) : String :=
  let t := pyStrip name.data
  if t.isEmpty then "其他"
  else ((categoryGroups.find? fun g => containsAny t g.2).map Prod.fst).getD "其他"

/-! ## `normalize_int` (app.py lines 287–297)

The source runs `int(float(x))` on the cleaned text inside a
`try/except` returning `0` on any failure.  The float literal grammar
(optional sign, digits with optional decimal point and exponent,
underscores between digits, `inf`/`infinity`/`nan` case-insensitively)
is embedded below; a successfully parsed finite literal is kept as its
exact value `mant * 10 ^ exp10` (IEEE-754 rounding and the `1e308`
overflow-to-infinity threshold are not modelled — the claims only
evaluate integer-valued literals well inside that range, where the
float value is exact), `int(...)` truncates it toward zero, and
`int(inf)` / `int(nan)` raise, landing in the `except` branch. -/

/-- ASCII digit test. -/
def isDigit (c : Char) : Bool :=
  '0' ≤ c ∧ c ≤ '9'

/-- Numeric value of a list of ASCII digits (most significant first). -/
def digitsToNat (l : List Char) : Nat :=
  l.foldl (fun a c => a * 10 + (c.toNat - 48)) 0

/-- Underscores in a Python numeric literal are legal only when
surrounded by digits on both sides. -/
def underscoresOk : List Char → Bool
  | [] => true
  | [c] => c ≠ '_'
  | c :: c2 :: rest =>
    if c = '_' then false
    else if c2 = '_' then
      match rest with
      | [] => false
      | c3 :: _ => isDigit c && isDigit c3 && underscoresOk rest
    else underscoresOk (c2 :: rest)

/-- Exponent suffix of a float literal: empty, or `e`/`E`, an optional
sign, and at least one digit consuming the rest of the input. -/
def parseExpPart : List Char → Option Int
  | [] => some 0
  | c :: rest =>
    if c = 'e' ∨ c = 'E' then
      let sd : Int × List Char :=
        match rest with
        | '+' :: r => (1, r)
        | '-' :: r => (-1, r)
        | r => (1, r)
      if sd.2 ≠ [] ∧ sd.2.all isDigit then some (sd.1 * digitsToNat sd.2)
      else none
    else none

/-- Unsigned float literal body: `digits [. digits] [exp]` with at least
one digit before or after the point.  Returns the digit string's value
and the decimal exponent (exponent part minus fraction length). -/
def parseNumber (s : List Char) : Option (Nat × Int) :=
  let ip := s.takeWhile isDigit
  let r1 := s.dropWhile isDigit
  match r1 with
  | '.' :: r2 =>
    let fp := r2.takeWhile isDigit
    let r3 := r2.dropWhile isDigit
    if ip = [] ∧ fp = [] then none
    else
      match parseExpPart r3 with
      | some ex => some (digitsToNat (ip ++ fp), ex - fp.length)
      | none => none
  | _ =>
    if ip = [] then none
    else
      match parseExpPart r1 with
      | some ex => some (digitsToNat ip, ex)
      | none => none

/-- Result of Python `float(x)`: an exactly-represented finite value
`mant * 10 ^ exp10`, a signed infinity, or `nan`. -/
inductive PyFloat where
  | finite (mant : Int) (exp10 : Int)
  | infinite (neg : Bool)
  | nanv
deriving DecidableEq

/-- Leading-sign handling of a float literal: `+` and `-` are consumed,
`-` records negativity, anything else leaves the input unchanged. -/
def splitSign (s : List Char) : Bool × List Char :=
  match s with
  | [] => (false, [])
  | c :: r =>
    if c = '+' then (false, r)
    else if c = '-' then (true, r)
    else (false, c :: r)

/-- Python `float(x)` on a string: strip whitespace, validate and drop
digit-group underscores, read an optional sign, then `inf`/`infinity`/
`nan` (case-insensitive) or a numeric literal. -/
def pyParseFloat (s0 : List Char) : Option PyFloat :=
  let s1 := pyStrip s0
  if underscoresOk s1 then
    let s2 := s1.filter fun c => c ≠ '_'
    let nb := splitSign s2
    let lb := pyLower nb.2
    if lb = "inf".data ∨ lb = "infinity".data then some (.infinite nb.1)
    else if lb = "nan".data then some .nanv
    else
      match parseNumber nb.2 with
      | some me => some (.finite (if nb.1 then -(me.1 : Int) else (me.1 : Int)) me.2)
      | none => none
  else none

/-- Python `int(...)` on the exact value `m * 10 ^ e`: truncation toward
zero. -/
def truncFinite (m e : Int) : Int :=
  if 0 ≤ e then m * (10 : Int) ^ e.toNat
  else
    let d := (10 : Nat) ^ (-e).toNat
    if 0 ≤ m then ((m.toNat / d : Nat) : Int) else -(((-m).toNat / d : Nat) : Int)

/-- The character deletions `normalize_int` performs after stripping:
`,` `，` `$` `元` and the ASCII space. -/
def premiumSep (c : Char) : Bool :=
  c = ',' ∨ c = '，' ∨ c = '$' ∨ c = '元' ∨ c = ' '

/-- The cleaned text `x` inside `normalize_int`: strip, then delete all
separator/currency characters. -/
def premiumClean (s : String) : List Char :=
  (pyStrip s.data).filter fun c => ¬ premiumSep c

/-- `normalize_int(s)`: `None` gives `0`; otherwise clean the text,
return `0` for the empty result or (case-insensitive) `"nan"`, else
`int(float(x))`, with every failure mapped to `0` by the source's
`except` clause.  (Non-string JSON values reach the source through
`str(s)`; the claims only apply it to `None` and strings.) -/
def normalize_int (s : Option String) : Int :=
  match s with
  | none => 0
  | some str =>
    let x := premiumClean str
    if x = [] then 0
    else if pyLower x = "nan".data then 0
    else
      match pyParseFloat x with
      | some (.finite m e) => truncFinite m e
      | some _ => 0
      | none => 0

/-! ## Relational state (init_db, app.py lines 66–144)

`db_conn` (lines 60–64) switches `PRAGMA foreign_keys=ON` on every
connection, so the `ON DELETE CASCADE` clauses of `policies` and
`policy_items` are active for every statement the app runs; the delete
operations below embed that cascade semantics.  Rows are kept in rowid
order; `next…Id` models the AUTOINCREMENT counters.  Under the
primary-key invariant (distinct `id`s) the cascades below coincide with
SQLite's. -/

/-- Row of the `customers` table. -/
structure CustomerRow where
  id : Nat
  name : String
  id_no : String
  birthday : String
  phone : String
  email : String
  address : String
  notes : String
  created_at : String
  updated_at : String
deriving DecidableEq

/-- Row of the `policies` table. -/
structure PolicyRow where
  id : Nat
  customer_id : Nat
  policy_group_name : String
  insurer : String
  policy_no : String
  pay_mode : String
  effective_date : String
  print_date : String
  total_premium_year : Int
  raw_json : String
  health_report : String
  created_by : String
  created_at : String
  updated_at : String
deriving DecidableEq

/-- Row of the `policy_items` table. -/
structure PolicyItemRow where
  id : Nat
  policy_id : Nat
  contract_type : String
  product_code : String
  product_name : String
  term : String
  coverage_term : String
  sum_insured : String
  premium : Int
  category : String
deriving DecidableEq

/-- The three entity tables plus the AUTOINCREMENT counters. -/
structure AppDB where
  customers : List CustomerRow
  policies : List PolicyRow
  policy_items : List PolicyItemRow
  nextCustomerId : Nat
  nextPolicyId : Nat
  nextItemId : Nat
deriving DecidableEq

/-! ## `upsert_customer` (app.py lines 465–492) -/

/-- The columns the `UPDATE customers SET …` statement of
`upsert_customer` writes: birthday, phone, email, address, notes and
`updated_at`. -/
def customerUpdate (now birthday phone email address notes : String)
    (r : CustomerRow) : CustomerRow :=
  { r with birthday := birthday, phone := phone, email := email,
           address := address, notes := notes, updated_at := now }

/-- `upsert_customer`: look the customer up by `(name, id_no)` when
`id_no` is non-empty (Python truthiness) and by `name` alone otherwise;
update the matched row's contact fields, or insert a fresh row.
Returns the new table state and the matched/created row id.  `fetchone`
on the un-ordered SELECT is modelled as the first row in rowid order. -/
def upsert_customer (db : AppDB) (now name id_no birthday phone email address notes : String) :
    AppDB × Nat :=
  let found :=
    if id_no ≠ "" then db.customers.find? fun c => c.name = name ∧ c.id_no = id_no
    else db.customers.find? fun c => c.name = name
  match found with
  | some c =>
    ({ db with customers := db.customers.map fun r =>
        if r.id = c.id then customerUpdate now birthday phone email address notes r else r },
     c.id)
  | none =>
    ({ db with
        customers := db.customers ++
          [⟨db.nextCustomerId, name, id_no, birthday, phone, email, address, notes, now, now⟩],
        nextCustomerId := db.nextCustomerId + 1 },
     db.nextCustomerId)

/-! ## Deletes with cascade (app.py lines 815–836, schema lines 94–128) -/

/-- `DELETE FROM policies WHERE id=?`: removes the policy row, and via
`ON DELETE CASCADE` every `policy_items` row referencing it. -/
def delete_policy (db : AppDB) (pid : Nat) : AppDB :=
  { db with
      policies := db.policies.filter fun p => p.id ≠ pid,
      policy_items := db.policy_items.filter fun it => it.policy_id ≠ pid }

/-- `DELETE FROM customers WHERE id=?`: removes the customer row; the
cascade removes every policy of that customer and, transitively, every
line item of one of those policies. -/
def delete_customer (db : AppDB) (cid : Nat) : AppDB :=
  let dead := db.policies.filter fun p => p.customer_id = cid
  { db with
      customers := db.customers.filter fun c => c.id ≠ cid,
      policies := db.policies.filter fun p => p.customer_id ≠ cid,
      policy_items := db.policy_items.filter fun it =>
        !(dead.any fun p => it.policy_id = p.id) }

/-! ## `insert_policy_items` (app.py lines 513–534) -/

/-- One element of the `items` array of the extracted JSON: the fields
`insert_policy_items` reads with `it.get(…)`, each possibly absent. -/
structure ItemInput where
  contract_type : Option String
  product_code : Option String
  product_name : Option String
  term : Option String
  coverage_term : Option String
  sum_insured : Option String
  premium : Option String
deriving DecidableEq

/-- The `policy_items` row built for one item: every text field is
`(it.get(…) or "").strip()`, the premium is `normalize_int`, and the
category is `classify_item_category` of the stripped product name. -/
def mkPolicyItemRow (iid pid : Nat) (it : ItemInput) : PolicyItemRow :=
  let product_name := pyStripS (it.product_name.getD "")
  ⟨iid, pid,
   pyStripS (it.contract_type.getD ""),
   pyStripS (it.product_code.getD ""),
   product_name,
   pyStripS (it.term.getD ""),
   pyStripS (it.coverage_term.getD ""),
   pyStripS (it.sum_insured.getD ""),
   normalize_int it.premium,
   classify_item_category product_name⟩

/-- `insert_policy_items(policy_id, items)`: append one row per item. -/
def insert_policy_items (db : AppDB) (policy_id : Nat) (items : List ItemInput) : AppDB :=
  items.foldl
    (fun d it =>
      { d with
          policy_items := d.policy_items ++ [mkPolicyItemRow d.nextItemId policy_id it],
          nextItemId := d.nextItemId + 1 })
    db

/-! ## Usage counters (app.py lines 223–266) -/

/-- Row of the `usage_daily` table (minus the surrogate id). -/
structure UsageRow where
  image_calls : Nat
  text_calls : Nat
  updated_at : String
deriving DecidableEq

/-- The `usage_daily` table, keyed by its UNIQUE(ymd, username) pair. -/
abbrev UsageTable := String → String → Option UsageRow

/-- `usage_get_or_create(username)`: read today's row; when absent,
insert a zero row and report zero counters. -/
def usage_get_or_create (tbl : UsageTable) (ymd user now : String) :
    UsageTable × UsageRow :=
  match tbl ymd user with
  | some r => (tbl, r)
  | none =>
    (fun y u => if y = ymd ∧ u = user then some ⟨0, 0, now⟩ else tbl y u,
     ⟨0, 0, now⟩)

/-- `usage_inc(username, image_inc, text_inc)`: the single
`INSERT … ON CONFLICT(ymd, username) DO UPDATE` statement.  On conflict
the two counters grow by the increments; with no existing row the
freshly inserted row carries the literal `(0, 0)` from the VALUES
clause. -/
def usage_inc (tbl : UsageTable) (ymd user now : String) (image_inc text_inc : Nat) :
    UsageTable :=
  fun y u =>
    if y = ymd ∧ u = user then
      match tbl ymd user with
      | some r => some ⟨r.image_calls + image_inc, r.text_calls + text_inc, now⟩
      | none => some ⟨0, 0, now⟩
    else tbl y u

/-- The image counter a reader of the table sees for a key (0 when the
row is absent, as `usage_get_or_create` reports). -/
def imageCount (tbl : UsageTable) (y u : String) : Nat :=
  ((tbl y u).map fun r => r.image_calls).getD 0

/-- The text counter a reader of the table sees for a key. -/
def textCount (tbl : UsageTable) (y u : String) : Nat :=
  ((tbl y u).map fun r => r.text_calls).getD 0

/-! ## `ai_parse_policy_image` (app.py lines 350–394) -/

/-- Outcome of the external vision call: the transport (or client
construction) fails, the returned text fails `json.loads`, or a parsed
document is produced. -/
inductive AIOutcome (α : Type) where
  | transportError
  | parseError
  | ok (data : α)
deriving DecidableEq

/-- Why `ai_parse_policy_image` stopped: the daily ceiling was reached
(`enforce_limits` message) or the AI call/parse failed (`AI 讀圖失敗`
message). -/
inductive ImgError where
  | limitReached
  | aiFailure
deriving DecidableEq

/-- Result of one `ai_parse_policy_image` run: the usage table after
the run, whether the external call was attempted, and the outcome. -/
structure ImgParseOut (α : Type) where
  usage : UsageTable
  aiCalled : Bool
  outcome : Except ImgError α

/-- `ai_parse_policy_image(img)`: `enforce_limits("image")` reads (and
possibly zero-creates) today's row and stops at or above the ceiling;
otherwise the external call runs, any exception stops with an error,
and only a successfully parsed document increments the image counter
and is returned. -/
def ai_parse_policy_image {α : Type} (limit : Nat) (tbl : UsageTable)
    (ymd user now : String) (ext : AIOutcome α) : ImgParseOut α :=
  let gc := usage_get_or_create tbl ymd user now
  if limit ≤ gc.2.image_calls then
    ⟨gc.1, false, .error .limitReached⟩
  else
    match ext with
    | .transportError => ⟨gc.1, true, .error .aiFailure⟩
    | .parseError => ⟨gc.1, true, .error .aiFailure⟩
    | .ok d => ⟨usage_inc gc.1 ymd user now 1 0, true, .ok d⟩

/-! ## `login_ui` (app.py lines 162–208) -/

/-- The `st.session_state` fields the login flow touches. -/
structure Session where
  authed : Bool
  username : String
  role : String
deriving DecidableEq

/-- `login_ui` on a submitted (username, password): a blank username
stops with an error; the admin password is checked first (guarded by
`ADMIN_PASSWORD` being non-empty, Python truthiness); then membership
in the shared user-password list (guarded by the list being non-empty);
otherwise the generic invalid-credential error stops without touching
the session. -/
def login_ui (admin_password : String) (user_pw_list : List String)
    (sess : Session) (username password : String) : Session :=
  let uname := pyStrip username.data
  if uname = [] then sess
  else if admin_password ≠ "" ∧ password = admin_password then
    ⟨true, String.mk uname, "admin"⟩
  else if user_pw_list ≠ [] ∧ password ∈ user_pw_list then
    ⟨true, String.mk uname, "user"⟩
  else sess

/-! ## Lemmas about `pyStrip` and substring containment -/

theorem containsSub_iff {t k : List Char} : containsSub t k = true ↔ k <:+: t := by
  simp [containsSub]

/-- Stripping only shortens a string: the stripped text occurs inside
the original. -/
theorem pyStrip_shrinks (s : List Char) : pyStrip s <:+: s := by
  unfold pyStrip
  have h1 : s.dropWhile pySpace <:+ s := List.dropWhile_suffix _
  have h2 : ((s.dropWhile pySpace).reverse.dropWhile pySpace).reverse <+:
      s.dropWhile pySpace := by
    rw [← List.reverse_suffix]
    simpa using List.dropWhile_suffix (l := (s.dropWhile pySpace).reverse) pySpace
  exact h2.isInfix.trans h1.isInfix

/-- A nonempty substring made of non-whitespace characters survives a
front `dropWhile` on whitespace. -/
theorem infix_dropWhile_keep {p : Char → Bool} {k : List Char} (hk : k ≠ [])
    (hks : ∀ c ∈ k, p c = false) :
    ∀ s : List Char, k <:+: s → k <:+: s.dropWhile p := by
  obtain ⟨a, k', rfl⟩ := List.exists_cons_of_ne_nil hk
  have ha : p a = false := hks a (by simp)
  intro s
  induction s with
  | nil => intro h; simp at h
  | cons c s' ih =>
    intro h
    rw [List.dropWhile_cons]
    by_cases hpc : p c = true
    · rw [if_pos hpc]
      rw [ List.infix_cons_iff] at h
      rcases h with h | h
      · exfalso
        have hac : a = c := (List.cons_prefix_cons.mp h).1
        rw [hac, hpc] at ha
        exact Bool.true_eq_false.mp ha
      · exact ih h
    · rw [if_neg hpc]
      exact h

/-- A nonempty substring made of non-whitespace characters survives
`pyStrip`. -/
theorem infix_pyStrip_of_keyword {k s : List Char} (hk : k ≠ [])
    (hks : ∀ c ∈ k, pySpace c = false) (h : k <:+: s) : k <:+: pyStrip s := by
  unfold pyStrip
  have h1 : k <:+: s.dropWhile pySpace := infix_dropWhile_keep hk hks s h
  have h2 : k.reverse <:+: (s.dropWhile pySpace).reverse := List.reverse_infix.mpr h1
  have hkr : k.reverse ≠ [] := by simpa using hk
  have hksr : ∀ c ∈ k.reverse, pySpace c = false := fun c hc => hks c (List.mem_reverse.mp hc)
  have h3 : k.reverse <:+: ((s.dropWhile pySpace).reverse).dropWhile pySpace :=
    infix_dropWhile_keep hkr hksr _ h2
  simpa using List.reverse_infix.mpr h3

/-- Whitespace-only text strips to nothing. -/
theorem pyStrip_eq_nil_of_all_space {s : List Char} (h : ∀ c ∈ s, pySpace c = true) :
    pyStrip s = [] := by
  unfold pyStrip
  rw [List.dropWhile_eq_nil_iff.mpr fun c hc => h c hc]
  rfl

/-- C1: a product name containing a medical keyword and no
life-insurance keyword is classified `醫療`; a blank name is classified
`其他`; and in general the classifier is first-match-wins over the
ordered keyword-group table with `其他` as the fallback. -/
theorem c1_classifier_categories :
    (∀ name : String,
        (∃ k ∈ medicalKeys, containsSub name.data k.data = true) →
        (∀ k ∈ lifeKeys, containsSub name.data k.data = false) →
        classify_item_category name = "醫療")
    ∧ (∀ name : String, (∀ c ∈ name.data, pySpace c = true) →
        classify_item_category name = "其他")
    ∧ ∀ name : String, classify_item_category name = classifySpec name := by
  refine ⟨?_, ?_, ?_⟩
  · intro name hmed hlife
    obtain ⟨k, hkmem, hk⟩ := hmed
    have hkprops : k.data ≠ [] ∧ ∀ c ∈ k.data, pySpace c = false := by
      revert hkmem
      have : ∀ k ∈ medicalKeys, k.data ≠ [] ∧ ∀ c ∈ k.data, pySpace c = false := by decide
      exact this k
    have hkinf : k.data <:+: name.data := containsSub_iff.mp hk
    have tinf : k.data <:+: pyStrip name.data :=
      infix_pyStrip_of_keyword hkprops.1 hkprops.2 hkinf
    have htne : pyStrip name.data ≠ [] := by
      intro h0
      rw [h0, List.infix_nil] at tinf
      exact hkprops.1 tinf
    have hmedany : containsAny (pyStrip name.data) medicalKeys = true := by
      rw [containsAny, List.any_eq_true]
      exact ⟨k, hkmem, containsSub_iff.mpr tinf⟩
    have hlifeany : containsAny (pyStrip name.data) lifeKeys = false := by
      rw [containsAny, List.any_eq_false]
      intro x hxmem hxc
      have h2 : x.data <:+: name.data :=
        (containsSub_iff.mp hxc).trans (pyStrip_shrinks name.data)
      have h3 := hlife x hxmem
      rw [containsSub_iff.mpr h2] at h3
      exact Bool.true_eq_false.mp h3
    simp [classify_item_category, hlifeany, hmedany, List.isEmpty_iff, htne]
  · intro name hsp
    simp [classify_item_category, pyStrip_eq_nil_of_all_space hsp]
  · intro name
    by_cases h0 : (pyStrip name.data).isEmpty
    · simp [classify_item_category, classifySpec, h0]
    · by_cases h1 : containsAny (pyStrip name.data) lifeKeys <;>
      by_cases h2 : containsAny (pyStrip name.data) medicalKeys <;>
      by_cases h3 : containsAny (pyStrip name.data) accidentKeys <;>
      by_cases h4 : containsAny (pyStrip name.data) cancerKeys <;>
      by_cases h5 : containsAny (pyStrip name.data) criticalKeys <;>
      by_cases h6 : containsAny (pyStrip name.data) ltcKeys <;>
      by_cases h7 : containsAny (pyStrip name.data) waiverKeys <;>
      simp [classify_item_category, classifySpec, categoryGroups, List.find?,
        h0, h1, h2, h3, h4, h5, h6, h7]

/-- Witness for C1 at concrete inputs. -/
theorem c1_classifier_categories_witness :
    classify_item_category " 住院醫療保險 " = "醫療" ∧ classify_item_category "  " = "其他" :=
  ⟨c1_classifier_categories.1 " 住院醫療保險 " ⟨"住院", by decide, by decide⟩ (by decide),
   c1_classifier_categories.2.1 "  " (by decide)⟩

/-- Discriminator for a parse producing a finite value (the only case
`int(float(x))` completes on; `int` of `inf`/`nan` raises). -/
def isFiniteFloat : Option PyFloat → Bool
  | some (.finite _ _) => true
  | _ => false

/-- C2: `normalize_int` on the premium text `"$10,129 元"` yields
`10129`, and yields `0` on any text whose cleaned form does not parse
as a finite number. -/
theorem c2_normalize_premium :
    normalize_int (some "$10,129 元") = 10129
    ∧ ∀ s : String,
        isFiniteFloat (pyParseFloat (premiumClean s)) = false →
        normalize_int (some s) = 0 := by
  constructor
  · decide
  · intro s h
    by_cases h1 : premiumClean s = []
    · simp [normalize_int, h1]
    · by_cases h2 : pyLower (premiumClean s) = "nan".data
      · simp [normalize_int, h1, h2]
      · rcases hp : pyParseFloat (premiumClean s) with _ | f
        · simp [normalize_int, h1, h2, hp]
        · cases f with
          | finite m e => rw [hp] at h; exact absurd h (by simp [isFiniteFloat])
          | infinite b => simp [normalize_int, h1, h2, hp]
          | nanv => simp [normalize_int, h1, h2, hp]

/-- Witness for C2's unparseable-text clause at a concrete input. -/
theorem c2_normalize_premium_witness : normalize_int (some "12xy") = 0 :=
  c2_normalize_premium.2 "12xy" (by decide)

/-! ## C6: sign behaviour of `normalize_int` -/

/-- A minus-free literal splits with a positive sign. -/
theorem splitSign_fst_of_not_mem {s : List Char} (h : '-' ∉ s) :
    (splitSign s).1 = false := by
  unfold splitSign
  match s with
  | [] => rfl
  | c :: r =>
    have hc : c ≠ '-' := fun hcc => h (hcc ▸ List.mem_cons_self ..)
    by_cases hp : c = '+'
    · simp [hp]
    · simp [hp, hc]

/-- A minus-free input can only parse to a non-negative finite value. -/
theorem pyParseFloat_mant_nonneg {x : List Char} (hx : '-' ∉ x) {m e : Int}
    (h : pyParseFloat x = some (.finite m e)) : 0 ≤ m := by
  simp only [pyParseFloat] at h
  by_cases hu : underscoresOk (pyStrip x) = true
  · rw [if_pos hu] at h
    have h2 : '-' ∉ (pyStrip x).filter fun c => c ≠ '_' := by
      intro hc
      exact hx ((pyStrip_shrinks x).subset (List.mem_filter.mp hc).1)
    have hsgn : (splitSign ((pyStrip x).filter fun c => c ≠ '_')).1 = false :=
      splitSign_fst_of_not_mem h2
    rw [hsgn] at h
    split at h
    · simp at h
    · split at h
      · simp at h
      · split at h
        · simp only [Bool.false_eq_true, if_false, Option.some.injEq, PyFloat.finite.injEq] at h
          rw [← h.1]
          exact Int.ofNat_nonneg _
        · simp at h
  · rw [if_neg hu] at h
    simp at h

/-- Truncation toward zero preserves non-negativity. -/
theorem truncFinite_nonneg {m e : Int} (hm : 0 ≤ m) : 0 ≤ truncFinite m e := by
  unfold truncFinite
  by_cases he : 0 ≤ e
  · rw [if_pos he]
    exact mul_nonneg hm (pow_nonneg (by norm_num) _)
  · rw [if_neg he, if_pos hm]
    exact Int.ofNat_nonneg _

/-- `normalize_int` of a minus-free text is non-negative. -/
theorem normalize_int_nonneg_of_no_minus {s : String} (h : '-' ∉ s.data) :
    0 ≤ normalize_int (some s) := by
  have hclean : '-' ∉ premiumClean s := by
    intro hc
    exact h ((pyStrip_shrinks s.data).subset (List.mem_filter.mp hc).1)
  by_cases h1 : premiumClean s = []
  · simp [normalize_int, h1]
  · by_cases h2 : pyLower (premiumClean s) = "nan".data
    · simp [normalize_int, h1, h2]
    · rcases hp : pyParseFloat (premiumClean s) with _ | f
      · simp [normalize_int, h1, h2, hp]
      · cases f with
        | finite m e =>
          have := truncFinite_nonneg (pyParseFloat_mant_nonneg hclean hp) (e := e)
          simp [normalize_int, h1, h2, hp, this]
        | infinite b => simp [normalize_int, h1, h2, hp]
        | nanv => simp [normalize_int, h1, h2, hp]

/-- C6 counterexample: the premium text `"-5"` is stored as the negative
integer `-5` by `insert_policy_items`, refuting "non-negative for every
possible input text". -/
theorem c6_counterexample :
    ((insert_policy_items ⟨[], [], [], 1, 1, 1⟩ 1
        [⟨none, none, some "意外險", none, none, none, some "-5"⟩]).policy_items.map
      fun r => r.premium) = [-5] ∧ (-5 : Int) < 0 := by
  decide

/-- C6 amended: a premium produced by `normalize_int` is non-negative
whenever the source text contains no minus sign, and
`insert_policy_items` preserves non-negativity of all stored premiums
under that condition on the incoming texts. -/
theorem c6_premium_nonneg_amended :
    (∀ s : String, '-' ∉ s.data → 0 ≤ normalize_int (some s))
    ∧ 0 ≤ normalize_int none
    ∧ ∀ (db : AppDB) (pid : Nat) (items : List ItemInput),
        (∀ r ∈ db.policy_items, 0 ≤ r.premium) →
        (∀ it ∈ items, ∀ s, it.premium = some s → '-' ∉ s.data) →
        ∀ r ∈ (insert_policy_items db pid items).policy_items, 0 ≤ r.premium := by
  refine ⟨fun s h => normalize_int_nonneg_of_no_minus h, by simp [normalize_int], ?_⟩
  intro db pid items
  induction items generalizing db with
  | nil => intro hdb _ r hr; exact hdb r hr
  | cons it its ih =>
    intro hdb hits r hr
    rw [insert_policy_items, List.foldl_cons] at hr
    refine ih _ ?_ (fun i hi => hits i (List.mem_cons_of_mem _ hi)) r hr
    intro r2 hr2
    rcases List.mem_append.mp hr2 with h2 | h2
    · exact hdb r2 h2
    · rw [List.mem_singleton.mp h2]
      show 0 ≤ normalize_int it.premium
      rcases hpr : it.premium with _ | ps
      · simp [normalize_int]
      · exact normalize_int_nonneg_of_no_minus
          (hits it (List.mem_cons_self ..) ps hpr)

/-- Witness for the amended C6 at concrete inputs. -/
theorem c6_premium_nonneg_amended_witness :
    0 ≤ normalize_int (some "$10,129 元")
    ∧ ∀ r ∈ (insert_policy_items ⟨[], [], [], 1, 1, 1⟩ 1
        [⟨none, none, some "住院", none, none, none, some "300"⟩]).policy_items,
        0 ≤ r.premium :=
  ⟨c6_premium_nonneg_amended.1 "$10,129 元" (by decide),
   c6_premium_nonneg_amended.2.2 ⟨[], [], [], 1, 1, 1⟩ 1
     [⟨none, none, some "住院", none, none, none, some "300"⟩]
     (by intro r hr; simp at hr) (by decide)⟩

/-! ## C3 / C7 / C9: usage-counter behaviour -/

theorem usage_get_or_create_some {tbl : UsageTable} {ymd user now : String} {r : UsageRow}
    (h : tbl ymd user = some r) :
    usage_get_or_create tbl ymd user now = (tbl, r) := by
  unfold usage_get_or_create
  rw [h]

theorem usage_get_or_create_none {tbl : UsageTable} {ymd user now : String}
    (h : tbl ymd user = none) :
    usage_get_or_create tbl ymd user now =
      (fun y u => if y = ymd ∧ u = user then some ⟨0, 0, now⟩ else tbl y u,
       (⟨0, 0, now⟩ : UsageRow)) := by
  unfold usage_get_or_create
  rw [h]

/-- The row `enforce_limits` compares against carries exactly the
counters a reader sees (zero when the row is created on the fly). -/
theorem usage_get_or_create_snd (tbl : UsageTable) (ymd user now : String) :
    (usage_get_or_create tbl ymd user now).2.image_calls = imageCount tbl ymd user
    ∧ (usage_get_or_create tbl ymd user now).2.text_calls = textCount tbl ymd user := by
  rcases hrow : tbl ymd user with _ | r
  · rw [usage_get_or_create_none hrow]
    simp [imageCount, textCount, hrow]
  · rw [usage_get_or_create_some hrow]
    simp [imageCount, textCount, hrow]

/-- Reading the counters through `usage_get_or_create` never changes
what any reader sees: the row it may insert carries zero counters. -/
theorem usage_get_or_create_counts (tbl : UsageTable) (ymd user now : String) :
    ∀ y u,
      imageCount (usage_get_or_create tbl ymd user now).1 y u = imageCount tbl y u
      ∧ textCount (usage_get_or_create tbl ymd user now).1 y u = textCount tbl y u := by
  intro y u
  rcases hrow : tbl ymd user with _ | r
  · rw [usage_get_or_create_none hrow]
    by_cases hyu : y = ymd ∧ u = user
    · obtain ⟨rfl, rfl⟩ := hyu
      simp [imageCount, textCount, hrow]
    · simp [imageCount, textCount, if_neg hyu]
  · rw [usage_get_or_create_some hrow]
    exact ⟨rfl, rfl⟩

theorem usage_inc_at {tbl : UsageTable} {ymd user now : String} {ii ti : Nat} :
    usage_inc tbl ymd user now ii ti ymd user =
      match tbl ymd user with
      | some r => some ⟨r.image_calls + ii, r.text_calls + ti, now⟩
      | none => some ⟨0, 0, now⟩ := by
  unfold usage_inc
  rw [if_pos ⟨rfl, rfl⟩]

theorem usage_inc_other {tbl : UsageTable} {ymd user now : String} {ii ti : Nat}
    {y u : String} (h : ¬(y = ymd ∧ u = user)) :
    usage_inc tbl ymd user now ii ti y u = tbl y u := by
  unfold usage_inc
  rw [if_neg h]

/-- The definitional shape of `ai_parse_policy_image`. -/
theorem ai_parse_policy_image_eq {α : Type} (limit : Nat) (tbl : UsageTable)
    (ymd user now : String) (ext : AIOutcome α) :
    ai_parse_policy_image limit tbl ymd user now ext =
      if limit ≤ (usage_get_or_create tbl ymd user now).2.image_calls then
        ⟨(usage_get_or_create tbl ymd user now).1, false, .error .limitReached⟩
      else
        match ext with
        | .transportError =>
          ⟨(usage_get_or_create tbl ymd user now).1, true, .error .aiFailure⟩
        | .parseError =>
          ⟨(usage_get_or_create tbl ymd user now).1, true, .error .aiFailure⟩
        | .ok d =>
          ⟨usage_inc (usage_get_or_create tbl ymd user now).1 ymd user now 1 0,
           true, .ok d⟩ := rfl

/-- C3: with the image ceiling at its configured default of 30, a user
whose row for the day already counts 30 or more image calls has the
next image extraction refused: the limit error is raised before the
external call is attempted, and the usage table is left exactly as it
was. -/
theorem c3_image_limit_refusal {α : Type} :
    ∀ (tbl : UsageTable) (ymd user now : String) (ext : AIOutcome α) (r : UsageRow),
      tbl ymd user = some r → 30 ≤ r.image_calls →
      (ai_parse_policy_image 30 tbl ymd user now ext).aiCalled = false
      ∧ (ai_parse_policy_image 30 tbl ymd user now ext).outcome = .error .limitReached
      ∧ (ai_parse_policy_image 30 tbl ymd user now ext).usage = tbl := by
  intro tbl ymd user now ext r hrow hge
  rw [ai_parse_policy_image_eq, usage_get_or_create_some hrow, if_pos hge]
  exact ⟨rfl, rfl, rfl⟩

/-- Witness for C3 at a concrete saturated table. -/
theorem c3_image_limit_refusal_witness :
    (ai_parse_policy_image 30
        (fun y u => if y = "2025-11-04" ∧ u = "alice" then some ⟨30, 2, "t0"⟩ else none)
        "2025-11-04" "alice" "t1" (AIOutcome.ok (0 : Nat))).aiCalled = false
    ∧ (ai_parse_policy_image 30
        (fun y u => if y = "2025-11-04" ∧ u = "alice" then some ⟨30, 2, "t0"⟩ else none)
        "2025-11-04" "alice" "t1" (AIOutcome.ok (0 : Nat))).outcome = .error .limitReached
    ∧ (ai_parse_policy_image 30
        (fun y u => if y = "2025-11-04" ∧ u = "alice" then some ⟨30, 2, "t0"⟩ else none)
        "2025-11-04" "alice" "t1" (AIOutcome.ok (0 : Nat))).usage =
      fun y u => if y = "2025-11-04" ∧ u = "alice" then some ⟨30, 2, "t0"⟩ else none :=
  c3_image_limit_refusal
    (fun y u => if y = "2025-11-04" ∧ u = "alice" then some ⟨30, 2, "t0"⟩ else none)
    "2025-11-04" "alice" "t1" (AIOutcome.ok 0) ⟨30, 2, "t0"⟩ (by simp) (by norm_num)

/-- C7: a transport or JSON-parse failure of the external call leaves
every counter every reader sees unchanged, and (when the ceiling had
not silenced the call) surfaces the AI-failure error after attempting
the call; only a successful call increments, adding exactly one to the
caller's image counter. -/
theorem c7_increment_only_on_success {α : Type} :
    ∀ (limit : Nat) (tbl : UsageTable) (ymd user now : String) (ext : AIOutcome α),
      ((ext = .transportError ∨ ext = .parseError) →
        (∀ y u,
            imageCount (ai_parse_policy_image limit tbl ymd user now ext).usage y u =
              imageCount tbl y u
            ∧ textCount (ai_parse_policy_image limit tbl ymd user now ext).usage y u =
              textCount tbl y u)
        ∧ (imageCount tbl ymd user < limit →
            (ai_parse_policy_image limit tbl ymd user now ext).outcome = .error .aiFailure
            ∧ (ai_parse_policy_image limit tbl ymd user now ext).aiCalled = true))
      ∧ ∀ d : α, ext = .ok d → imageCount tbl ymd user < limit →
          imageCount (ai_parse_policy_image limit tbl ymd user now ext).usage ymd user =
            imageCount tbl ymd user + 1 := by
  intro limit tbl ymd user now ext
  have hsnd := usage_get_or_create_snd tbl ymd user now
  constructor
  · intro hfail
    constructor
    · intro y u
      have husage :
          (ai_parse_policy_image limit tbl ymd user now ext).usage =
            (usage_get_or_create tbl ymd user now).1 := by
        rw [ai_parse_policy_image_eq]
        by_cases hlim : limit ≤ (usage_get_or_create tbl ymd user now).2.image_calls
        · rw [if_pos hlim]
        · rw [if_neg hlim]
          rcases hfail with h | h <;> rw [h]
      rw [husage]
      exact usage_get_or_create_counts tbl ymd user now y u
    · intro hlt
      have hlim : ¬ limit ≤ (usage_get_or_create tbl ymd user now).2.image_calls := by
        rw [hsnd.1]; omega
      rw [ai_parse_policy_image_eq, if_neg hlim]
      rcases hfail with h | h <;> rw [h] <;> exact ⟨rfl, rfl⟩
  · intro d hok hlt
    have hlim : ¬ limit ≤ (usage_get_or_create tbl ymd user now).2.image_calls := by
      rw [hsnd.1]; omega
    rw [ai_parse_policy_image_eq, if_neg hlim, hok]
    show imageCount
      (usage_inc (usage_get_or_create tbl ymd user now).1 ymd user now 1 0) ymd user =
      imageCount tbl ymd user + 1
    rcases hrow : tbl ymd user with _ | r
    · rw [usage_get_or_create_none hrow]
      simp [imageCount, usage_inc_at, hrow]
    · rw [usage_get_or_create_some hrow]
      simp [imageCount, usage_inc_at, hrow]

/-- Witness for C7 at a concrete table and a parse failure. -/
theorem c7_increment_only_on_success_witness :
    imageCount (ai_parse_policy_image 30
        (fun y u => if y = "2025-11-04" ∧ u = "bob" then some ⟨3, 1, "t0"⟩ else none)
        "2025-11-04" "bob" "t1" (AIOutcome.parseError (α := Nat))).usage
        "2025-11-04" "bob" =
      imageCount
        (fun y u => if y = "2025-11-04" ∧ u = "bob" then some ⟨3, 1, "t0"⟩ else none)
        "2025-11-04" "bob"
    ∧ (ai_parse_policy_image 30
        (fun y u => if y = "2025-11-04" ∧ u = "bob" then some ⟨3, 1, "t0"⟩ else none)
        "2025-11-04" "bob" "t1" (AIOutcome.parseError (α := Nat))).outcome =
      .error .aiFailure :=
  ⟨((c7_increment_only_on_success 30
      (fun y u => if y = "2025-11-04" ∧ u = "bob" then some ⟨3, 1, "t0"⟩ else none)
      "2025-11-04" "bob" "t1" AIOutcome.parseError).1 (Or.inr rfl)).1
      "2025-11-04" "bob" |>.1,
   (((c7_increment_only_on_success 30
      (fun y u => if y = "2025-11-04" ∧ u = "bob" then some ⟨3, 1, "t0"⟩ else none)
      "2025-11-04" "bob" "t1" AIOutcome.parseError).1 (Or.inr rfl)).2 (by simp [imageCount])).1⟩

/-- C9: `usage_inc` touches nothing but the requested counter: an
image increment leaves every text counter unchanged, a text increment
leaves every image counter unchanged, and rows of every other
(day, user) key are untouched entirely. -/
theorem c9_usage_inc_frame :
    ∀ (tbl : UsageTable) (ymd user now : String),
      (∀ y u, textCount (usage_inc tbl ymd user now 1 0) y u = textCount tbl y u)
      ∧ (∀ y u, imageCount (usage_inc tbl ymd user now 0 1) y u = imageCount tbl y u)
      ∧ ∀ y u, ¬(y = ymd ∧ u = user) →
          usage_inc tbl ymd user now 1 0 y u = tbl y u
          ∧ usage_inc tbl ymd user now 0 1 y u = tbl y u := by
  intro tbl ymd user now
  refine ⟨?_, ?_, fun y u h => ⟨usage_inc_other h, usage_inc_other h⟩⟩ <;>
  · intro y u
    by_cases hyu : y = ymd ∧ u = user
    · obtain ⟨rfl, rfl⟩ := hyu
      rcases hrow : tbl y u with _ | r <;>
        simp [imageCount, textCount, usage_inc_at, hrow]
    · simp only [textCount, imageCount, usage_inc_other hyu]

/-- Witness for C9's other-key clause at concrete keys. -/
theorem c9_usage_inc_frame_witness :
    usage_inc (fun y u => if y = "2025-11-04" ∧ u = "carol" then some ⟨5, 7, "t0"⟩ else none)
      "2025-11-04" "carol" "t1" 1 0 "2025-11-03" "dave" =
      (fun y u => if y = "2025-11-04" ∧ u = "carol" then some ⟨5, 7, "t0"⟩ else none)
        "2025-11-03" "dave"
    ∧ textCount
        (usage_inc (fun y u => if y = "2025-11-04" ∧ u = "carol" then some ⟨5, 7, "t0"⟩ else none)
          "2025-11-04" "carol" "t1" 1 0) "2025-11-04" "carol" =
      textCount (fun y u => if y = "2025-11-04" ∧ u = "carol" then some ⟨5, 7, "t0"⟩ else none)
        "2025-11-04" "carol" :=
  ⟨((c9_usage_inc_frame _ "2025-11-04" "carol" "t1").2.2 "2025-11-03" "dave" (by simp)).1,
   (c9_usage_inc_frame _ "2025-11-04" "carol" "t1").1 "2025-11-04" "carol"⟩

/-! ## C4 / C10: `upsert_customer` -/

theorem upsert_customer_of_found (db : AppDB) (now name id_no b p e a n : String)
    (c : CustomerRow)
    (h : (if id_no ≠ "" then db.customers.find? fun c => c.name = name ∧ c.id_no = id_no
          else db.customers.find? fun c => c.name = name) = some c) :
    upsert_customer db now name id_no b p e a n =
      ({ db with customers := db.customers.map fun r =>
          if r.id = c.id then customerUpdate now b p e a n r else r }, c.id) := by
  unfold upsert_customer
  rw [h]

theorem upsert_customer_of_absent (db : AppDB) (now name id_no b p e a n : String)
    (h : (if id_no ≠ "" then db.customers.find? fun c => c.name = name ∧ c.id_no = id_no
          else db.customers.find? fun c => c.name = name) = none) :
    upsert_customer db now name id_no b p e a n =
      ({ db with
          customers := db.customers ++
            [⟨db.nextCustomerId, name, id_no, b, p, e, a, n, now, now⟩],
          nextCustomerId := db.nextCustomerId + 1 }, db.nextCustomerId) := by
  unfold upsert_customer
  rw [h]

/-- `countP` is blind to a map that does not change the predicate's
verdict on any element. -/
theorem countP_map_of_invariant {α : Type} {pr : α → Bool} {f : α → α}
    (hf : ∀ r, pr (f r) = pr r) (l : List α) : (l.map f).countP pr = l.countP pr := by
  induction l with
  | nil => rfl
  | cons x l ih => simp [List.countP_cons, ih, hf]

/-- The row update of `upsert_customer` never changes how a predicate
reading only `name` and `id_no` judges a row. -/
theorem customerUpdate_ite_pred (pr : CustomerRow → Bool)
    (hpr : ∀ r now b p e a n, pr (customerUpdate now b p e a n r) = pr r)
    (now b p e a n : String) (cid : Nat) (r : CustomerRow) :
    pr (if r.id = cid then customerUpdate now b p e a n r else r) = pr r := by
  by_cases h : r.id = cid
  · rw [if_pos h, hpr]
  · rw [if_neg h]

/-- Two upserts with the same search key collapse to one matching row:
the generic engine behind C4, for the id-bearing branch. -/
theorem upsert_twice_with_id (db : AppDB)
    (now1 now2 name id_no b1 p1 e1 a1 n1 b2 p2 e2 a2 n2 : String)
    (hid : id_no ≠ "")
    (h0 : db.customers.countP (fun c => c.name = name ∧ c.id_no = id_no) = 0) :
    ((upsert_customer (upsert_customer db now1 name id_no b1 p1 e1 a1 n1).1
        now2 name id_no b2 p2 e2 a2 n2).1.customers.countP
      fun c => c.name = name ∧ c.id_no = id_no) = 1
    ∧ (upsert_customer (upsert_customer db now1 name id_no b1 p1 e1 a1 n1).1
        now2 name id_no b2 p2 e2 a2 n2).1.customers.length =
      (upsert_customer db now1 name id_no b1 p1 e1 a1 n1).1.customers.length
    ∧ (upsert_customer (upsert_customer db now1 name id_no b1 p1 e1 a1 n1).1
        now2 name id_no b2 p2 e2 a2 n2).2 =
      (upsert_customer db now1 name id_no b1 p1 e1 a1 n1).2 := by
  have hnone : db.customers.find? (fun c => c.name = name ∧ c.id_no = id_no) = none := by
    rw [List.find?_eq_none]
    intro x hx
    simpa using List.countP_eq_zero.mp h0 x hx
  have h1 := upsert_customer_of_absent db now1 name id_no b1 p1 e1 a1 n1
    (by rw [if_pos hid]; exact hnone)
  set newRow : CustomerRow :=
    ⟨db.nextCustomerId, name, id_no, b1, p1, e1, a1, n1, now1, now1⟩ with hnew
  have hprednew : (fun c : CustomerRow => decide (c.name = name ∧ c.id_no = id_no)) newRow
      = true := by
    simp [hnew]
  have hfind2 : ((db.customers ++ [newRow]).find?
      fun c => c.name = name ∧ c.id_no = id_no) = some newRow := by
    rw [List.find?_append, hnone, Option.none_or]
    exact List.find?_cons_of_pos _ hprednew
  have h2 := upsert_customer_of_found
    { db with customers := db.customers ++ [newRow],
              nextCustomerId := db.nextCustomerId + 1 }
    now2 name id_no b2 p2 e2 a2 n2 newRow
    (by rw [if_pos hid]; exact hfind2)
  rw [h1, h2]
  dsimp only
  refine ⟨?_, by simp, rfl⟩
  rw [countP_map_of_invariant
    (fun r => customerUpdate_ite_pred (fun c => decide (c.name = name ∧ c.id_no = id_no))
      (fun _ _ _ _ _ _ _ => rfl) now2 b2 p2 e2 a2 n2 newRow.id r)]
  rw [List.countP_append, h0, List.countP_cons]
  simp [hprednew]

/-- Two upserts with the same name and no id collapse to one row
matched by name alone: the generic engine behind C4's second half. -/
theorem upsert_twice_name_only (db : AppDB)
    (now1 now2 name b1 p1 e1 a1 n1 b2 p2 e2 a2 n2 : String)
    (h0 : db.customers.countP (fun c => c.name = name) = 0) :
    ((upsert_customer (upsert_customer db now1 name "" b1 p1 e1 a1 n1).1
        now2 name "" b2 p2 e2 a2 n2).1.customers.countP fun c => c.name = name) = 1
    ∧ (upsert_customer (upsert_customer db now1 name "" b1 p1 e1 a1 n1).1
        now2 name "" b2 p2 e2 a2 n2).1.customers.length =
      (upsert_customer db now1 name "" b1 p1 e1 a1 n1).1.customers.length
    ∧ (upsert_customer (upsert_customer db now1 name "" b1 p1 e1 a1 n1).1
        now2 name "" b2 p2 e2 a2 n2).2 =
      (upsert_customer db now1 name "" b1 p1 e1 a1 n1).2 := by
  have hnone : db.customers.find? (fun c => c.name = name) = none := by
    rw [List.find?_eq_none]
    intro x hx
    simpa using List.countP_eq_zero.mp h0 x hx
  have h1 := upsert_customer_of_absent db now1 name "" b1 p1 e1 a1 n1
    (by rw [if_neg (by simp)]; exact hnone)
  set newRow : CustomerRow :=
    ⟨db.nextCustomerId, name, "", b1, p1, e1, a1, n1, now1, now1⟩ with hnew
  have hprednew : (fun c : CustomerRow => decide (c.name = name)) newRow = true := by
    simp [hnew]
  have hfind2 : ((db.customers ++ [newRow]).find? fun c => c.name = name) = some newRow := by
    rw [List.find?_append, hnone, Option.none_or]
    exact List.find?_cons_of_pos _ hprednew
  have h2 := upsert_customer_of_found
    { db with customers := db.customers ++ [newRow],
              nextCustomerId := db.nextCustomerId + 1 }
    now2 name "" b2 p2 e2 a2 n2 newRow
    (by rw [if_neg (by simp)]; exact hfind2)
  rw [h1, h2]
  dsimp only
  refine ⟨?_, by simp, rfl⟩
  rw [countP_map_of_invariant
    (fun r => customerUpdate_ite_pred (fun c => decide (c.name = name))
      (fun _ _ _ _ _ _ _ => rfl) now2 b2 p2 e2 a2 n2 newRow.id r)]
  rw [List.countP_append, h0, List.countP_cons]
  simp [hprednew]

/-- C4: upserting the customer 王小明 with ID A123456789 twice starting
from a table without that (name, id) pair leaves exactly one matching
row — the second call updates the row the first call created rather
than inserting — and likewise for the same name with an empty ID,
matched by name alone. -/
theorem c4_upsert_no_duplicate :
    (∀ (db : AppDB) (now1 now2 b1 p1 e1 a1 n1 b2 p2 e2 a2 n2 : String),
      db.customers.countP (fun c => c.name = "王小明" ∧ c.id_no = "A123456789") = 0 →
      ((upsert_customer (upsert_customer db now1 "王小明" "A123456789" b1 p1 e1 a1 n1).1
          now2 "王小明" "A123456789" b2 p2 e2 a2 n2).1.customers.countP
        fun c => c.name = "王小明" ∧ c.id_no = "A123456789") = 1
      ∧ (upsert_customer (upsert_customer db now1 "王小明" "A123456789" b1 p1 e1 a1 n1).1
          now2 "王小明" "A123456789" b2 p2 e2 a2 n2).1.customers.length =
        (upsert_customer db now1 "王小明" "A123456789" b1 p1 e1 a1 n1).1.customers.length
      ∧ (upsert_customer (upsert_customer db now1 "王小明" "A123456789" b1 p1 e1 a1 n1).1
          now2 "王小明" "A123456789" b2 p2 e2 a2 n2).2 =
        (upsert_customer db now1 "王小明" "A123456789" b1 p1 e1 a1 n1).2)
    ∧ ∀ (db : AppDB) (now1 now2 b1 p1 e1 a1 n1 b2 p2 e2 a2 n2 : String),
      db.customers.countP (fun c => c.name = "王小明") = 0 →
      ((upsert_customer (upsert_customer db now1 "王小明" "" b1 p1 e1 a1 n1).1
          now2 "王小明" "" b2 p2 e2 a2 n2).1.customers.countP
        fun c => c.name = "王小明") = 1
      ∧ (upsert_customer (upsert_customer db now1 "王小明" "" b1 p1 e1 a1 n1).1
          now2 "王小明" "" b2 p2 e2 a2 n2).1.customers.length =
        (upsert_customer db now1 "王小明" "" b1 p1 e1 a1 n1).1.customers.length
      ∧ (upsert_customer (upsert_customer db now1 "王小明" "" b1 p1 e1 a1 n1).1
          now2 "王小明" "" b2 p2 e2 a2 n2).2 =
        (upsert_customer db now1 "王小明" "" b1 p1 e1 a1 n1).2 := by
  constructor
  · intro db now1 now2 b1 p1 e1 a1 n1 b2 p2 e2 a2 n2 h0
    exact upsert_twice_with_id db now1 now2 "王小明" "A123456789"
      b1 p1 e1 a1 n1 b2 p2 e2 a2 n2 (by decide) h0
  · intro db now1 now2 b1 p1 e1 a1 n1 b2 p2 e2 a2 n2 h0
    exact upsert_twice_name_only db now1 now2 "王小明"
      b1 p1 e1 a1 n1 b2 p2 e2 a2 n2 h0

/-- Witness for C4 from the empty customer table. -/
theorem c4_upsert_no_duplicate_witness :
    ((upsert_customer
        (upsert_customer ⟨[], [], [], 1, 1, 1⟩ "t1" "王小明" "A123456789"
          "" "0912" "" "" "").1
        "t2" "王小明" "A123456789" "" "0913" "" "" "").1.customers.countP
      fun c => c.name = "王小明" ∧ c.id_no = "A123456789") = 1 :=
  (c4_upsert_no_duplicate.1 ⟨[], [], [], 1, 1, 1⟩ "t1" "t2"
    "" "0912" "" "" "" "" "0913" "" "" "" (by decide)).1

/-- C10: `upsert_customer` leaves the `id`, `name`, `id_no` and
`created_at` of every pre-existing row untouched, and any row it does
touch receives exactly the contact-field update (`birthday`, `phone`,
`email`, `address`, `notes`, `updated_at`). -/
theorem c10_upsert_writes_only_contact_fields :
    ∀ (db : AppDB) (now name id_no b p e a n : String),
      ((upsert_customer db now name id_no b p e a n).1.customers.take
          db.customers.length).map (fun r => (r.id, r.name, r.id_no, r.created_at)) =
        db.customers.map (fun r => (r.id, r.name, r.id_no, r.created_at))
      ∧ ∀ i : Nat, i < db.customers.length →
          (upsert_customer db now name id_no b p e a n).1.customers[i]? =
            db.customers[i]?
          ∨ (upsert_customer db now name id_no b p e a n).1.customers[i]? =
            (db.customers[i]?).map (customerUpdate now b p e a n) := by
  intro db now name id_no b p e a n
  rcases hf : (if id_no ≠ "" then db.customers.find? fun c => c.name = name ∧ c.id_no = id_no
               else db.customers.find? fun c => c.name = name) with _ | c
  · rw [upsert_customer_of_absent db now name id_no b p e a n hf]
    dsimp only
    constructor
    · rw [List.take_left]
    · intro i hi
      left
      exact List.getElem?_append_left hi
  · rw [upsert_customer_of_found db now name id_no b p e a n c hf]
    dsimp only
    constructor
    · rw [show db.customers.length =
          (db.customers.map fun r =>
            if r.id = c.id then customerUpdate now b p e a n r else r).length by simp,
        List.take_length, List.map_map]
      refine List.map_congr_left fun r hr => ?_
      by_cases hid2 : r.id = c.id <;> simp [customerUpdate, hid2]
    · intro i hi
      rw [List.getElem?_map]
      rcases hsome : db.customers[i]? with _ | r
      · left
        simp [hsome]
      · by_cases hid2 : r.id = c.id
        · right
          simp [hsome, hid2]
        · left
          simp [hsome, hid2]

/-- Witness for C10 on a one-row table. -/
theorem c10_upsert_writes_only_contact_fields_witness :
    ((upsert_customer
          ⟨[⟨1, "王小明", "A123456789", "", "", "", "", "", "t0", "t0"⟩], [], [], 2, 1, 1⟩
          "t1" "王小明" "A123456789" "1990-01-01" "0912" "m@x" "addr" "note").1.customers[0]? =
        ([⟨1, "王小明", "A123456789", "", "", "", "", "", "t0", "t0"⟩] :
          List CustomerRow)[0]?
      ∨ (upsert_customer
          ⟨[⟨1, "王小明", "A123456789", "", "", "", "", "", "t0", "t0"⟩], [], [], 2, 1, 1⟩
          "t1" "王小明" "A123456789" "1990-01-01" "0912" "m@x" "addr" "note").1.customers[0]? =
        (([⟨1, "王小明", "A123456789", "", "", "", "", "", "t0", "t0"⟩] :
          List CustomerRow)[0]?).map
          (customerUpdate "t1" "1990-01-01" "0912" "m@x" "addr" "note")) :=
  (c10_upsert_writes_only_contact_fields
    ⟨[⟨1, "王小明", "A123456789", "", "", "", "", "", "t0", "t0"⟩], [], [], 2, 1, 1⟩
    "t1" "王小明" "A123456789" "1990-01-01" "0912" "m@x" "addr" "note").2 0 (by decide)

/-! ## C5: cascade deletes -/

/-- The definitional shape of `delete_customer`. -/
theorem delete_customer_eq (db : AppDB) (cid : Nat) :
    delete_customer db cid =
      { db with
          customers := db.customers.filter fun c => c.id ≠ cid,
          policies := db.policies.filter fun p => p.customer_id ≠ cid,
          policy_items := db.policy_items.filter fun it =>
            !((db.policies.filter fun p => p.customer_id = cid).any
                fun p => it.policy_id = p.id) } := rfl

/-- C5: deleting a policy removes exactly the line items referencing it
(every surviving item references a different policy, and every item of
a different policy survives, as does every other policy row); deleting
a customer removes the customer, every policy of that customer, and
exactly the line items referencing one of those policies.  The cascade
is in force because `db_conn` turns `PRAGMA foreign_keys=ON` for every
connection. -/
theorem c5_delete_cascades :
    (∀ (db : AppDB) (pid : Nat),
      (∀ it ∈ (delete_policy db pid).policy_items, it.policy_id ≠ pid)
      ∧ (∀ it ∈ db.policy_items, it.policy_id ≠ pid →
          it ∈ (delete_policy db pid).policy_items)
      ∧ ∀ q ∈ db.policies, q.id ≠ pid → q ∈ (delete_policy db pid).policies)
    ∧ ∀ (db : AppDB) (cid : Nat),
      (∀ c ∈ (delete_customer db cid).customers, c.id ≠ cid)
      ∧ (∀ q ∈ (delete_customer db cid).policies, q.customer_id ≠ cid)
      ∧ (∀ it ∈ (delete_customer db cid).policy_items,
          ∀ q ∈ db.policies, q.customer_id = cid → it.policy_id ≠ q.id)
      ∧ ∀ it ∈ db.policy_items,
          (∀ q ∈ db.policies, q.customer_id = cid → it.policy_id ≠ q.id) →
          it ∈ (delete_customer db cid).policy_items := by
  constructor
  · intro db pid
    refine ⟨fun it hit => ?_, fun it hit hne => ?_, fun q hq hne => ?_⟩
    · have h2 := (List.mem_filter.mp hit).2
      simpa using h2
    · exact List.mem_filter.mpr ⟨hit, by simpa using hne⟩
    · exact List.mem_filter.mpr ⟨hq, by simpa using hne⟩
  · intro db cid
    rw [delete_customer_eq]
    refine ⟨fun c hc => ?_, fun q hq => ?_, fun it hit q hq hqc => ?_,
      fun it hit hno => ?_⟩
    · have h2 := (List.mem_filter.mp hc).2
      simpa using h2
    · have h2 := (List.mem_filter.mp hq).2
      simpa using h2
    · have h2 := (List.mem_filter.mp hit).2
      rw [Bool.not_eq_eq_eq_not, Bool.not_true, List.any_eq_false] at h2
      have hdead : q ∈ db.policies.filter fun p => p.customer_id = cid :=
        List.mem_filter.mpr ⟨hq, by simpa using hqc⟩
      intro heq
      exact h2 q hdead (by simpa using heq)
    · refine List.mem_filter.mpr ⟨hit, ?_⟩
      rw [Bool.not_eq_eq_eq_not, Bool.not_true, List.any_eq_false]
      intro q hq
      have hqm := List.mem_filter.mp hq
      have hqc : q.customer_id = cid := by simpa using hqm.2
      simpa using hno q hqm.1 hqc

/-- Witness for C5: the line item of the other policy survives both
cascading deletes. -/
theorem c5_delete_cascades_witness :
    (⟨2, 2, "", "", "", "", "", "", 0, "其他"⟩ : PolicyItemRow) ∈
      (delete_policy
        ⟨[⟨1, "王小明", "", "", "", "", "", "", "t", "t"⟩,
          ⟨2, "李四", "", "", "", "", "", "", "t", "t"⟩],
         [⟨1, 1, "", "", "", "", "", "", 0, "", "", "u", "t", "t"⟩,
          ⟨2, 2, "", "", "", "", "", "", 0, "", "", "u", "t", "t"⟩],
         [⟨1, 1, "", "", "", "", "", "", 0, "其他"⟩,
          ⟨2, 2, "", "", "", "", "", "", 0, "其他"⟩], 3, 3, 3⟩ 1).policy_items
    ∧ (⟨2, 2, "", "", "", "", "", "", 0, "其他"⟩ : PolicyItemRow) ∈
      (delete_customer
        ⟨[⟨1, "王小明", "", "", "", "", "", "", "t", "t"⟩,
          ⟨2, "李四", "", "", "", "", "", "", "t", "t"⟩],
         [⟨1, 1, "", "", "", "", "", "", 0, "", "", "u", "t", "t"⟩,
          ⟨2, 2, "", "", "", "", "", "", 0, "", "", "u", "t", "t"⟩],
         [⟨1, 1, "", "", "", "", "", "", 0, "其他"⟩,
          ⟨2, 2, "", "", "", "", "", "", 0, "其他"⟩], 3, 3, 3⟩ 1).policy_items :=
  ⟨(c5_delete_cascades.1
      ⟨[⟨1, "王小明", "", "", "", "", "", "", "t", "t"⟩,
        ⟨2, "李四", "", "", "", "", "", "", "t", "t"⟩],
       [⟨1, 1, "", "", "", "", "", "", 0, "", "", "u", "t", "t"⟩,
        ⟨2, 2, "", "", "", "", "", "", 0, "", "", "u", "t", "t"⟩],
       [⟨1, 1, "", "", "", "", "", "", 0, "其他"⟩,
        ⟨2, 2, "", "", "", "", "", "", 0, "其他"⟩], 3, 3, 3⟩ 1).2.1
      ⟨2, 2, "", "", "", "", "", "", 0, "其他"⟩ (by decide) (by decide),
   (c5_delete_cascades.2
      ⟨[⟨1, "王小明", "", "", "", "", "", "", "t", "t"⟩,
        ⟨2, "李四", "", "", "", "", "", "", "t", "t"⟩],
       [⟨1, 1, "", "", "", "", "", "", 0, "", "", "u", "t", "t"⟩,
        ⟨2, 2, "", "", "", "", "", "", 0, "", "", "u", "t", "t"⟩],
       [⟨1, 1, "", "", "", "", "", "", 0, "其他"⟩,
        ⟨2, 2, "", "", "", "", "", "", 0, "其他"⟩], 3, 3, 3⟩ 1).2.2.2
      ⟨2, 2, "", "", "", "", "", "", 0, "其他"⟩ (by decide) (by decide)⟩

/-! ## C8: login roles -/

/-- C8: with a configured (non-empty) admin secret and a usable
username, a login attempt from an unauthenticated session receives the
admin role exactly when the password equals the admin secret (checked
first); a password in the shared list receives the user role; any
other password leaves the session exactly as it was — unauthenticated,
with no session fields set. -/
theorem c8_login_roles :
    ∀ (ap : String) (pws : List String) (sess : Session) (user pw : String),
      ap ≠ "" → sess.authed = false → pyStrip user.data ≠ [] →
      (((login_ui ap pws sess user pw).authed = true
          ∧ (login_ui ap pws sess user pw).role = "admin") ↔ pw = ap)
      ∧ (pw ≠ ap → pw ∈ pws →
          login_ui ap pws sess user pw = ⟨true, String.mk (pyStrip user.data), "user"⟩)
      ∧ (pw ≠ ap → pw ∉ pws →
          login_ui ap pws sess user pw = sess
          ∧ (login_ui ap pws sess user pw).authed = false) := by
  intro ap pws sess user pw hap hauth huser
  simp only [login_ui]
  rw [if_neg huser]
  by_cases hpw : pw = ap
  · rw [if_pos ⟨hap, hpw⟩]
    exact ⟨by simp [hpw], fun hne _ => absurd hpw hne, fun hne _ => absurd hpw hne⟩
  · rw [if_neg fun hc => hpw hc.2]
    by_cases hmem : pw ∈ pws
    · have hne : pws ≠ [] := by
        intro h0
        rw [h0] at hmem
        simp at hmem
      rw [if_pos ⟨hne, hmem⟩]
      refine ⟨?_, fun _ _ => rfl, fun _ hnm => absurd hmem hnm⟩
      simp [hpw]
    · rw [if_neg fun hc => hmem hc.2]
      refine ⟨?_, fun _ hm => absurd hm hmem, fun _ _ => ⟨rfl, hauth⟩⟩
      simp [hpw, hauth]

/-- Witness for C8: a concrete admin login and a concrete rejection. -/
theorem c8_login_roles_witness :
    (login_ui "admpw" ["shared1"] ⟨false, "", ""⟩ "amy" "admpw").authed = true
    ∧ (login_ui "admpw" ["shared1"] ⟨false, "", ""⟩ "amy" "admpw").role = "admin"
    ∧ login_ui "admpw" ["shared1"] ⟨false, "", ""⟩ "amy" "wrongpw" = ⟨false, "", ""⟩ :=
  ⟨((c8_login_roles "admpw" ["shared1"] ⟨false, "", ""⟩ "amy" "admpw"
      (by decide) rfl (by decide)).1.mpr rfl).1,
   ((c8_login_roles "admpw" ["shared1"] ⟨false, "", ""⟩ "amy" "admpw"
      (by decide) rfl (by decide)).1.mpr rfl).2,
   ((c8_login_roles "admpw" ["shared1"] ⟨false, "", ""⟩ "amy" "wrongpw"
      (by decide) rfl (by decide)).2.2 (by decide) (by decide)).1⟩
